import Mathlib

/-!
Verification of the movie-mood-matcher recommendation core.

Shallow embedding of `backend/app/services/enhanced_recommendation_service.py`
and `backend/app/services/recommendation_service.py` (query parsing, filter
building, similar-content merging, result processing and relevance scoring).

Conventions of the embedding:
* Python `str` values are Lean `String`s; the scanning primitives work on
  `List Char` (`String.data`).
* Python floats are modelled as exact rationals (`ℚ`); the float sort key
  `vote_average * vote_count ** 0.5` is compared through the signed-square
  key `va * |va| * vc`, which orders pairs exactly like `va * Real.sqrt vc`
  (proved below in `wLeB_iff_sqrt`).
* TMDB JSON items are modelled by the `Item` structure; fields read with
  `dict.get(k, default)` are total fields with that default, fields whose
  *presence* is tested (`"genre_ids" in item`, `"first_air_date" in item`)
  are `Option`s whose `isSome` models key presence.
* Python dicts used as ordered key/value maps (filter sets, the id-keyed
  merge map of `_get_similar_content`) are association lists with
  Python-dict update semantics: replacing an existing key keeps its
  position, a new key is appended (`dictInsert` / `dictAssign`).
* `list(set(xs))` deduplicates with unspecified iteration order in CPython;
  it is modelled by `List.dedup`.  No claim below depends on the order.
* The TMDB HTTP client is an external collaborator; it is modelled as a
  `Gateway` structure of abstract response functions.
* Wall-clock fields (`processing_time`) are I/O and are omitted from the
  response model.
-/

namespace MovieMood

/-! ### Python string primitives -/

/-- Python `str.isspace` characters relevant to `\s` (ASCII whitespace). -/
def pySpace (c : Char) : Bool :=
  c == ' ' || c == '\t' || c == '\n' || c == '\r' ||
  c == Char.ofNat 11 || c == Char.ofNat 12

/-- Python `str.lower()` (per-character lowering; the queries the claims
touch are ASCII, where this is exact). -/
def lowerChars (s : List Char) : List Char := s.map Char.toLower

/-- Tests whether `pat` (already lowercase) matches at the front of `s`, case-insensitively. -/
def leadsWithCI : List Char → List Char → Bool
  | [], _ => true
  | _ :: _, [] => false
  | p :: ps, c :: cs => (c.toLower == p) && leadsWithCI ps cs

/-- Tests whether `pat` matches at the front of `s` exactly. -/
def leadsWith : List Char → List Char → Bool
  | [], _ => true
  | _ :: _, [] => false
  | p :: ps, c :: cs => (c == p) && leadsWith ps cs

/-- Python `needle in haystack` (substring containment). -/
def containsSub (needle : List Char) : List Char → Bool
  | [] => needle.isEmpty
  | c :: cs => leadsWith needle (c :: cs) || containsSub needle cs

/-- Length of the leading whitespace run. -/
def wsCount (s : List Char) : ℕ := (s.takeWhile pySpace).length

/-- Python `str.strip()`. -/
def pyStrip (s : List Char) : List Char :=
  ((s.dropWhile pySpace).reverse.dropWhile pySpace).reverse

/-- Python truthiness of an optional string (`None` and `""` are falsy). -/
def pyTruthyStr : Option String → Bool
  | none => false
  | some s => !s.isEmpty

/-- Python `a or b` on two optional strings. -/
def pyOrStr (a b : Option String) : Option String :=
  if pyTruthyStr a then a else b

/-! ### Filter maps (Python dicts keyed by strings) -/

/-- A filter value: TMDB filter dicts hold numbers or strings. -/
inductive FilterVal where
  | num (q : ℚ)
  | str (s : String)
deriving DecidableEq, Repr

/-- A filter set: ordered association list with Python-dict semantics. -/
abbrev Filters := List (String × FilterVal)

/-- Python dict assignment `d[k] = v` on any key/value type: replace in place if
the key exists, append otherwise. -/
def pyAssign {α β : Type} [BEq α] (m : List (α × β)) (k : α) (v : β) :
    List (α × β) :=
  if (List.any m fun p => p.1 == k) then
    List.map (fun p => if p.1 == k then (k, v) else p) m
  else m ++ [(k, v)]

/-- Python dict assignment `d[k] = v` on a filter dict. -/
def dictInsert (m : Filters) (k : String) (v : FilterVal) : Filters :=
  pyAssign m k v

/-- Python dict lookup. -/
def fLookup (m : Filters) (k : String) : Option FilterVal :=
  List.lookup k m

/-- Python `d.update(u)` (`u` applied left to right). -/
def dictUpdate (m : Filters) (u : Filters) : Filters :=
  u.foldl (fun acc kv => dictInsert acc kv.1 kv.2) m

/-! ### The static lookup tables of the enhanced service -/

/-- The value side of `GENRE_MAP`: a single id or a list of ids. -/
inductive GenreIds where
  | single (n : ℕ)
  | multi (l : List ℕ)
deriving DecidableEq, Repr

/-- Ids contributed by a `GENRE_MAP` entry (`extend` for a list,
`append` for a scalar). -/
def GenreIds.toList : GenreIds → List ℕ
  | .single n => [n]
  | .multi l => l

/-- Table `EnhancedRecommendationService.GENRE_MAP`, in declaration order. -/
def GENRE_MAP : List (String × GenreIds) := [
  ("action", .single 28),
  ("adventure", .single 12),
  ("animation", .single 16),
  ("comedy", .single 35),
  ("crime", .single 80),
  ("documentary", .single 99),
  ("drama", .single 18),
  ("family", .single 10751),
  ("fantasy", .single 14),
  ("history", .single 36),
  ("horror", .single 27),
  ("music", .single 10402),
  ("mystery", .single 9648),
  ("romance", .single 10749),
  ("science fiction", .single 878),
  ("sci-fi", .single 878),
  ("tv movie", .single 10770),
  ("thriller", .single 53),
  ("war", .single 10752),
  ("western", .single 37),
  ("space", .single 878),
  ("alien", .single 878),
  ("aliens", .single 878),
  ("superhero", .multi [28, 14, 878]),
  ("zombie", .multi [27, 28]),
  ("vampire", .multi [27, 14])]

/-- Table `EnhancedRecommendationService.MOOD_GENRE_MAP`, in declaration order. -/
def MOOD_GENRE_MAP : List (String × List ℕ) := [
  ("happy", [35, 10749, 16]),
  ("feel-good", [35, 10751, 10749]),
  ("sad", [18, 10749]),
  ("excited", [28, 12, 878]),
  ("scared", [27, 53]),
  ("relaxed", [35, 10751, 99]),
  ("romantic", [10749, 18]),
  ("adventurous", [12, 28, 14]),
  ("thoughtful", [18, 9648, 878]),
  ("nostalgic", [10751, 16, 35]),
  ("angry", [28, 80, 53])]

/-- Table `RecommendationService.MOOD_GENRE_MAP` (no "feel-good" entry),
in declaration order. -/
def MOOD_GENRE_MAP_SIMPLE : List (String × List ℕ) := [
  ("happy", [35, 10749, 16]),
  ("sad", [18, 10749]),
  ("excited", [28, 12, 878]),
  ("scared", [27, 53]),
  ("relaxed", [35, 10751, 99]),
  ("romantic", [10749, 18]),
  ("adventurous", [12, 28, 14]),
  ("thoughtful", [18, 9648, 878]),
  ("nostalgic", [10751, 16, 35]),
  ("angry", [28, 80, 53])]

/-- Table `RecommendationService.PREFERENCE_KEYWORDS`, in declaration order. -/
def PREFERENCE_KEYWORDS : List (String × List ℕ) := [
  ("funny", [35]),
  ("scary", [27]),
  ("action", [28]),
  ("romantic", [10749]),
  ("mystery", [9648]),
  ("thriller", [53]),
  ("drama", [18]),
  ("family", [10751]),
  ("animated", [16]),
  ("documentary", [99]),
  ("crime", [80]),
  ("fantasy", [14]),
  ("sci-fi", [878]),
  ("historical", [36]),
  ("war", [10752]),
  ("western", [37]),
  ("music", [10402])]

/-- Table `RecommendationService.RUNTIME_PREFERENCES`, in declaration order. -/
def RUNTIME_PREFERENCES : List (String × (ℕ × ℕ)) := [
  ("quick", (0, 30)),
  ("short", (30, 90)),
  ("standard", (90, 150)),
  ("long", (150, 300)),
  ("binge", (30, 60))]

/-! ### Embedding of the regular-expression scans

The services use three fixed `re` constructs; each is hand-compiled to a
scanner that follows the Python engine's exploration order (leftmost match;
alternatives in written order; greedy quantifiers longest-first; lazy
quantifiers shortest-first).  `.` never matches a newline. -/

/-- The lazy tail `(?:\s*$|\s*but)` of the three similarity patterns:
either the rest is all whitespace, or after the (necessarily maximal)
whitespace run the literal "but" follows. -/
def simTailOk (t : List Char) : Bool :=
  t.all pySpace || leadsWithCI ['b', 'u', 't'] (t.drop (wsCount t))

/-- Lazy `(.+?)` before `simTailOk`: extend the capture one (non-newline)
character at a time, stopping at the first position whose tail matches. -/
def lazyCap (acc : List Char) : List Char → Option (List Char)
  | [] => none
  | c :: cs =>
    if c == '\n' then none
    else if simTailOk cs then some (acc ++ [c]) else lazyCap (acc ++ [c]) cs

/-- Matcher for `\s+(.+?)(?:\s*$|\s*but)` at the front of `s`: the greedy `\s+` tries
`k` whitespace characters from the maximal run down to 1. -/
def capAfterWs (s : List Char) : ℕ → Option (List Char)
  | 0 => none
  | k + 1 =>
    match lazyCap [] (s.drop (k + 1)) with
    | some g => some g
    | none => capAfterWs s k

/-- Entry point for the final `\s+(.+?)(?:\s*$|\s*but)` of each pattern. -/
def capEntry (s : List Char) : Option (List Char) := capAfterWs s (wsCount s)

/-- Matcher for `\s*word…` at the front of `r`: greedy `\s*` tries `k` whitespace
characters from the maximal run down to 0, then the literal `word`
(case-insensitively), then the continuation `cont`; on failure of the
continuation the scan backtracks to a shorter whitespace run. -/
def seekStar (word : List Char) (cont : List Char → Option (List Char))
    (r : List Char) : ℕ → Option (List Char)
  | 0 =>
    if leadsWithCI word r then cont (r.drop word.length) else none
  | k + 1 =>
    match
      (if leadsWithCI word (r.drop (k + 1)) then
        cont ((r.drop (k + 1)).drop word.length)
      else none) with
    | some g => some g
    | none => seekStar word cont r k

/-- Matcher for `\s+word…` at the front of `r`: as `seekStar` but at least one
whitespace character is required. -/
def seekPlus (word : List Char) (cont : List Char → Option (List Char))
    (r : List Char) : ℕ → Option (List Char)
  | 0 => none
  | k + 1 =>
    match
      (if leadsWithCI word (r.drop (k + 1)) then
        cont ((r.drop (k + 1)).drop word.length)
      else none) with
    | some g => some g
    | none => seekPlus word cont r k

/-- Alternatives of `(?:shows?|movies?|something)?`, in engine order
(greedy optional group: each alternative first, the empty string last). -/
def altHeads1 : List (List Char) :=
  [['s','h','o','w','s'], ['s','h','o','w'],
   ['m','o','v','i','e','s'], ['m','o','v','i','e'],
   ['s','o','m','e','t','h','i','n','g'], []]

/-- Alternatives of `(?:shows?|movies?)?`, in engine order. -/
def altHeads3 : List (List Char) :=
  [['s','h','o','w','s'], ['s','h','o','w'],
   ['m','o','v','i','e','s'], ['m','o','v','i','e'], []]

/-- Try a list of head alternatives at the front of `s`. -/
def tryHeads (heads : List (List Char)) (cont : List Char → Option (List Char))
    (s : List Char) : Option (List Char) :=
  heads.foldr
    (fun p rest =>
      match (if leadsWithCI p s then cont (s.drop p.length) else none) with
      | some g => some g
      | none => rest)
    none

/-- Pattern `(?:shows?|movies?|something)?\s*like\s+(.+?)(?:\s*$|\s*but)`
anchored at the front of `s`. -/
def pat1At (s : List Char) : Option (List Char) :=
  tryHeads altHeads1
    (fun r => seekStar ['l','i','k','e'] capEntry r (wsCount r)) s

/-- Pattern `similar\s+to\s+(.+?)(?:\s*$|\s*but)` anchored at the front of `s`. -/
def pat2At (s : List Char) : Option (List Char) :=
  if leadsWithCI ['s','i','m','i','l','a','r'] s then
    let r := s.drop 7
    seekPlus ['t','o'] capEntry r (wsCount r)
  else none

/-- Pattern `(?:shows?|movies?)?\s*such\s+as\s+(.+?)(?:\s*$|\s*but)`
anchored at the front of `s`. -/
def pat3At (s : List Char) : Option (List Char) :=
  tryHeads altHeads3
    (fun r =>
      seekStar ['s','u','c','h']
        (fun r2 => seekPlus ['a','s'] capEntry r2 (wsCount r2))
        r (wsCount r)) s

/-- Embedding of `re.search`: try the anchored matcher at each position, leftmost first. -/
def searchPat (f : List Char → Option (List Char)) : List Char → Option (List Char)
  | [] => f []
  | c :: cs =>
    match f (c :: cs) with
    | some g => some g
    | none => searchPat f cs

/-- The similarity-pattern loop of `EnhancedRecommendationService._parse_query`:
patterns tried in written order, first pattern with a search hit wins and
yields its captured group. -/
def simDetect (q : List Char) : Option (List Char) :=
  match searchPat pat1At q with
  | some g => some g
  | none =>
    match searchPat pat2At q with
    | some g => some g
    | none => searchPat pat3At q

/-! #### `\b(19\d{2}|20\d{2})\b` (year extraction, simple service) -/

/-- Python `\w` (ASCII approximation: letters, digits, underscore). -/
def isWordChar (c : Char) : Bool := c.isAlphanum || c == '_'

/-- A `\b` word boundary next to a digit: the adjacent character (if
any) is not a word character. -/
def boundB : Option Char → Bool
  | none => true
  | some c => !isWordChar c

/-- Digit value of an ASCII digit character. -/
def digitVal (c : Char) : ℕ := c.toNat - 48

/-- The year pattern anchored at the current position; `prev` is the
character immediately before it (`none` at the start of the string). -/
def yearAt (prev : Option Char) (s : List Char) : Option ℕ :=
  match s with
  | d1 :: d2 :: d3 :: d4 :: rest =>
    if boundB prev &&
       ((d1 == '1' && d2 == '9') || (d1 == '2' && d2 == '0')) &&
       d3.isDigit && d4.isDigit && boundB rest.head? then
      some (1000 * digitVal d1 + 100 * digitVal d2 + 10 * digitVal d3 + digitVal d4)
    else none
  | _ => none

/-- Embedding of `re.search(r'\b(19\d{2}|20\d{2})\b', q)`: leftmost year token. -/
def findYear (prev : Option Char) : List Char → Option ℕ
  | [] => none
  | c :: cs =>
    match yearAt prev (c :: cs) with
    | some y => some y
    | none => findYear (some c) cs

/-! #### `re.findall(r'like\s+([A-Z][A-Za-z\s]+?)(?:\s+but|$)', q, re.IGNORECASE)` -/

/-- The character class `[A-Za-z\s]`. -/
def letterOrSpace (c : Char) : Bool :=
  (c.isUpper || c.isLower) || pySpace c

/-- The tail `(?:\s+but|$)` of the "like X" pattern: returns the rest of
the string after the whole match on success. -/
def likeTail (t : List Char) : Option (List Char) :=
  let w := wsCount t
  if w ≥ 1 && leadsWithCI ['b','u','t'] (t.drop w) then some ((t.drop w).drop 3)
  else if t.isEmpty then some []
  else none

/-- Lazy `[A-Za-z\s]+?` continuation: capture at least one more class
character, checking the tail after each extension (shortest first). -/
def likeLazy (acc : List Char) : List Char → Option (List Char × List Char)
  | [] => none
  | c :: cs =>
    if letterOrSpace c then
      match likeTail cs with
      | some rest => some (acc ++ [c], rest)
      | none => likeLazy (acc ++ [c]) cs
    else none

/-- The whole "like X" pattern anchored at the front of `s`: literal
`like`, greedy `\s+`, `[A-Z]` (any letter under `re.IGNORECASE`), then the
lazy class run.  Returns the captured group and the rest after the match. -/
def likeAt (s : List Char) : Option (List Char × List Char) :=
  if leadsWithCI ['l','i','k','e'] s then
    let r := s.drop 4
    let rec tryWs : ℕ → Option (List Char × List Char)
      | 0 => none
      | k + 1 =>
        match
          (match r.drop (k + 1) with
           | c :: cs =>
             if c.isUpper || c.isLower then
               match likeLazy [c] cs with
               | some (g, rest) => some (g, rest)
               | none => none
             else none
           | [] => none) with
        | some g => some g
        | none => tryWs k
    tryWs (wsCount r)
  else none

/-- Embedding of the `re.findall` scan: non-overlapping matches left to right (fuelled by
the string length; each match consumes at least one character). -/
def likeFindallAux : ℕ → List Char → List String
  | 0, _ => []
  | _, [] => []
  | fuel + 1, c :: cs =>
    match likeAt (c :: cs) with
    | some (g, rest) => String.mk g :: likeFindallAux fuel rest
    | none => likeFindallAux fuel cs

/-- All captures of the "like X" pattern, left to right. -/
def likeFindall (q : List Char) : List String := likeFindallAux q.length q

/-! ### Data model -/

/-- Values of `item["similarity_type"]` set by `_get_similar_content`. -/
inductive SimTag where
  | similar
  | recommended
deriving DecidableEq, Repr

/-- A TMDB JSON item (one element of a `results` list).  Fields read via
`item.get(k, default)` are total with that default; fields whose presence
is tested are `Option`s (`none` = key absent).  `genres` holds the ids of
the structured genre-object list. -/
structure Item where
  id : ℕ
  title : Option String := none
  name : Option String := none
  overview : Option String := none
  poster_path : Option String := none
  backdrop_path : Option String := none
  media_type : Option String := none
  vote_average : ℚ := 0
  vote_count : ℕ := 0
  popularity : ℚ := 0
  genres : List ℕ := []
  genre_ids : Option (List ℕ) := none
  first_air_date : Option String := none
  release_date : Option String := none
  runtime : Option ℕ := none
  similarity_type : Option SimTag := none
deriving DecidableEq, Repr

/-- A normalized gateway / fetcher result set (`results` dict shape). -/
structure ResultSet where
  results : List Item := []
  total_results : ℕ := 0
  total_pages : ℕ := 0
  page : Option ℕ := none
  original_title : Option String := none
  original_type : Option String := none
deriving DecidableEq, Repr

/-- The TMDB client, as an abstract collaborator: each method is an
arbitrary response function. -/
structure Gateway where
  search_multi : String → ResultSet
  get_similar_movies : ℕ → ResultSet
  get_movie_recommendations : ℕ → ResultSet
  get_similar_tv : ℕ → ResultSet
  get_tv_recommendations : ℕ → ResultSet
  discover_movies : ℕ → Filters → ResultSet
  discover_tv : ℕ → Filters → ResultSet

/-- The `MediaType` enumeration of the schemas. -/
inductive MediaType where
  | movie
  | tv
  | all
deriving DecidableEq, Repr

/-- The `parsed` dict of `EnhancedRecommendationService._parse_query`. -/
structure ParsedQuery where
  original : String
  genres : List ℕ
  keywords : List String
  mood : Option String
  is_similarity_query : Bool
  specific_mentions : List String
  filters : Filters
deriving DecidableEq, Repr

/-- The `RecommendationQuery` schema (`filters` is the caller override map). -/
structure RecommendationQuery where
  query : String
  media_type : MediaType := .all
  filters : Option Filters := none
  page : ℕ := 1
  limit : ℕ := 20
deriving DecidableEq, Repr

/-! ### The enhanced query parser -/

/-- First table entry whose key occurs in the lowered query: the
mood-extraction loop with its `break`. -/
def findMood (ql : List Char) : List (String × List ℕ) → Option (String × List ℕ)
  | [] => none
  | kv :: rest => if containsSub kv.1.data ql then some kv else findMood ql rest

/-- The genre/keyword extraction loop over a keyword table: every matching
key contributes its ids and its key string, in table order. -/
def scanKeywords (ql : List Char) (table : List (String × GenreIds)) :
    List ℕ × List String :=
  table.foldl
    (fun acc kv =>
      if containsSub kv.1.data ql then
        (acc.1 ++ kv.2.toList, acc.2 ++ [kv.1])
      else acc)
    ([], [])

/-- Embedding of `EnhancedRecommendationService._parse_query`.  `currentYear` stands for
`datetime.now().year` (an input of the embedding, not of the claims). -/
def parseQuery (currentYear : ℕ) (query : String) : ParsedQuery :=
  let ql := lowerChars query.data
  let sim := simDetect query.data
  let gk := scanKeywords ql GENRE_MAP
  let mood := findMood ql MOOD_GENRE_MAP
  let genresAcc := gk.1 ++ (match mood with | some m => m.2 | none => [])
  let f0 : Filters := []
  let f1 :=
    if containsSub "highly rated".data ql || containsSub "best".data ql then
      dictInsert (dictInsert f0 "vote_average_gte" (.num (15/2)))
        "vote_count_gte" (.num 100)
    else f0
  let f2 :=
    if containsSub "new".data ql || containsSub "recent".data ql ||
       containsSub "latest".data ql then
      dictInsert f1 "primary_release_date_gte"
        (.str (toString (currentYear - 2) ++ "-01-01"))
    else f1
  let f3 :=
    if containsSub "classic".data ql || containsSub "old".data ql then
      dictInsert f2 "primary_release_date_lte" (.str "2000-01-01")
    else f2
  { original := query
    genres := genresAcc.dedup
    keywords := gk.2
    mood := mood.map (·.1)
    is_similarity_query := sim.isSome
    specific_mentions :=
      match sim with
      | some g => [String.mk (pyStrip g)]
      | none => []
    filters := f3 }

/-! ### The simple query parser (`RecommendationService`) -/

/-- The `parsed` dict of `RecommendationService._parse_query`. -/
structure ParsedQuerySimple where
  original : String
  genres : List ℕ
  keywords : List String
  mood : Option String
  time_preference : Option String
  year_preference : Option ℕ
  rating_preference : Option String
  specific_mentions : List String
deriving DecidableEq, Repr

/-- First runtime-bucket key occurring in the lowered query (the
time-preference loop with its `break`). -/
def findTime (ql : List Char) : List (String × (ℕ × ℕ)) → Option String
  | [] => none
  | kv :: rest => if containsSub kv.1.data ql then some kv.1 else findTime ql rest

/-- The keyword loop over `PREFERENCE_KEYWORDS` (no `break`), starting
from the genres already seeded by the mood. -/
def scanPrefKeywords (ql : List Char) (g0 : List ℕ) : List ℕ × List String :=
  PREFERENCE_KEYWORDS.foldl
    (fun acc kv =>
      if containsSub kv.1.data ql then (acc.1 ++ kv.2, acc.2 ++ [kv.1]) else acc)
    (g0, [])

/-- Embedding of `RecommendationService._parse_query`. -/
def parseQuerySimple (query : String) : ParsedQuerySimple :=
  let ql := lowerChars query.data
  let mood := findMood ql MOOD_GENRE_MAP_SIMPLE
  let g0 := match mood with | some m => m.2 | none => []
  let gk := scanPrefKeywords ql g0
  let timePref := findTime ql RUNTIME_PREFERENCES
  let yearPref := findYear none query.data
  let ratingPref :=
    if containsSub "highly rated".data ql || containsSub "best".data ql then
      some "high"
    else if containsSub "underrated".data ql then some "underrated"
    else none
  { original := query
    genres := gk.1.dedup
    keywords := gk.2
    mood := mood.map (·.1)
    time_preference := timePref
    year_preference := yearPref
    rating_preference := ratingPref
    specific_mentions := (likeFindall query.data).map (fun g => String.mk (pyStrip g.data)) }

/-! ### Filter building (enhanced service) -/

/-- Comma-joined genre-id filter value. -/
def genreJoin (gs : List ℕ) : String :=
  String.intercalate "," (gs.map toString)

/-- Embedding of `EnhancedRecommendationService._build_filters`. -/
def buildFilters (pq : ParsedQuery) (user : Option Filters) : Filters :=
  let f := pq.filters
  let f :=
    if pq.genres ≠ [] then dictInsert f "with_genres" (.str (genreJoin pq.genres))
    else f
  match user with
  | some uf => dictUpdate f uf
  | none => f

/-! ### Similar-content strategy (enhanced service) -/

/-- Executable comparison standing for the float sort key
`vote_average * vote_count ** 0.5`: the signed square
`va * |va| * vc` orders items exactly like `va * sqrt vc`
(see `wLeB_iff_sqrt`). -/
def wKeySq (x : Item) : ℚ :=
  x.vote_average * |x.vote_average| * (x.vote_count : ℚ)

/-- The `sorted(key=weighted rating, reverse=True)` comparison: `a` may come
before `b`.  Stable descending order. -/
def wLeB (a b : Item) : Bool := decide (wKeySq b ≤ wKeySq a)

/-- First search hit whose media kind is movie or tv. -/
def firstMovieTv : List Item → Option Item
  | [] => none
  | x :: xs =>
    if x.media_type == some "movie" || x.media_type == some "tv" then some x
    else firstMovieTv xs

/-- Dict assignment `all_results[item["id"]] = item` on the id-keyed merge dict. -/
def dictAssign (m : List (ℕ × Item)) (k : ℕ) (v : Item) : List (ℕ × Item) :=
  pyAssign m k v

/-- The in-place tagging `item["similarity_type"] = tag;
item["media_type"] = content_type`. -/
def markItem (x : Item) (tag : SimTag) (mt : String) : Item :=
  { x with similarity_type := some tag, media_type := some mt }

/-- The `similar` response fetched for the resolved target. -/
def simSource (gw : Gateway) (target : Item) : ResultSet :=
  if target.media_type.getD "" == "movie" then gw.get_similar_movies target.id
  else gw.get_similar_tv target.id

/-- The `recommendations` response fetched for the resolved target. -/
def recSource (gw : Gateway) (target : Item) : ResultSet :=
  if target.media_type.getD "" == "movie" then gw.get_movie_recommendations target.id
  else gw.get_tv_recommendations target.id

/-- The two merge loops of `_get_similar_content`: tag and assign every
similar item (`all_results[item["id"]] = item`), then add each
recommended item only when its id is not already a key. -/
def mergeMap (sims rcs : List Item) (ct : String) : List (ℕ × Item) :=
  let m0 := sims.foldl (fun m x => dictAssign m x.id (markItem x .similar ct)) []
  rcs.foldl
    (fun m x =>
      if (List.lookup x.id m).isSome then m
      else m ++ [(x.id, markItem x .recommended ct)])
    m0

/-- The merge dict for a resolved target, after
`del all_results[content_id]` (dict deletion keeps the other entries in
order). -/
def prunedPairs (gw : Gateway) (target : Item) : List (ℕ × Item) :=
  (mergeMap (simSource gw target).results (recSource gw target).results
      (target.media_type.getD "")).filter
    (fun p => !(p.1 == target.id))

/-- The `sorted(all_results.values(), key=weighted rating, reverse=True)` step. -/
def rankedItems (gw : Gateway) (target : Item) : List Item :=
  ((prunedPairs gw target).map (·.2)).mergeSort wLeB

/-- Embedding of `EnhancedRecommendationService._get_similar_content`. -/
def getSimilarContent (gw : Gateway) (title : String) : ResultSet :=
  let search := gw.search_multi title
  if search.results.isEmpty then
    { results := [], total_results := 0, total_pages := 0 }
  else
    match firstMovieTv search.results with
    | none => { results := [], total_results := 0, total_pages := 0 }
    | some target =>
      { results := (rankedItems gw target).take 20
        total_results := (rankedItems gw target).length
        total_pages := 1
        original_title := pyOrStr target.title target.name
        original_type := some (target.media_type.getD "") }

/-! ### Discovery strategy (enhanced service) -/

/-- Embedding of `EnhancedRecommendationService._fetch_content` (the parsed query is an
unused parameter of the source signature). -/
def fetchContent (gw : Gateway) (_pq : ParsedQuery) (filters : Filters)
    (mt : MediaType) (page : ℕ) : ResultSet :=
  match mt with
  | .movie => gw.discover_movies page filters
  | .tv => gw.discover_tv page filters
  | .all =>
    let movies := gw.discover_movies page filters
    let tv := gw.discover_tv page filters
    let mres := movies.results.map (fun x => { x with media_type := some "movie" })
    let tres := tv.results.map
      (fun x => { x with media_type := some "tv", title := some (x.name.getD "") })
    let combined := (mres ++ tres).mergeSort wLeB
    { results := combined
      total_results := movies.total_results + tv.total_results
      total_pages := max movies.total_pages tv.total_pages
      page := some page }

/-! ### Relevance scoring -/

/-- The list `[g["id"] for g in item.get("genres", [])]` with the
`genre_ids` fallback when that list is empty and the key is present. -/
def itemGenres (x : Item) : List ℕ :=
  if x.genres.isEmpty && x.genre_ids.isSome then x.genre_ids.getD []
  else x.genres

/-- Cardinality `len(set(a) & set(b))`. -/
def genreOverlap (a b : List ℕ) : ℕ := (a.toFinset ∩ b.toFinset).card

/-- Embedding of `EnhancedRecommendationService._calculate_relevance`. -/
def calcRelevance (item : Item) (pq : ParsedQuery) : ℚ :=
  let base : ℚ := 1/2
  let s1 :=
    if pq.is_similarity_query then
      if item.similarity_type = some .similar then (9 : ℚ)/10
      else if item.similarity_type = some .recommended then (8 : ℚ)/10
      else base
    else
      if pq.genres ≠ [] then
        let ov := genreOverlap pq.genres (itemGenres item)
        if 0 < ov then base + 3/10 * ((ov : ℚ) / (pq.genres.length : ℚ))
        else base
      else base
  let s2 :=
    if 8 ≤ item.vote_average ∧ 100 ≤ item.vote_count then s1 + 2/10
    else if 7 ≤ item.vote_average ∧ 50 ≤ item.vote_count then s1 + 1/10
    else if 6 ≤ item.vote_average then s1 + 1/20
    else s1
  min s2 1

/-- Embedding of `RecommendationService._calculate_relevance` (the simpler service). -/
def calcRelevanceSimple (item : Item) (pq : ParsedQuerySimple) : ℚ :=
  let ov := genreOverlap pq.genres (itemGenres item)
  let s0 : ℚ := 1/2
  let s1 :=
    if 0 < ov then s0 + 2/10 * ((ov : ℚ) / (pq.genres.length : ℚ)) else s0
  let s2 :=
    if 15/2 < item.vote_average then s1 + 1/10
    else if 13/2 < item.vote_average then s1 + 1/20
    else s1
  let s3 :=
    if 100 < item.popularity then s2 + 1/10
    else if 50 < item.popularity then s2 + 1/20
    else s2
  let s4 := if pyTruthyStr pq.mood ∧ 0 < ov then s3 + 1/10 else s3
  min s4 1

/-! ### Explanations and result processing (enhanced service) -/

/-- Formatting `f"{x:.1f}"`.  Python formats the binary float with round-half-even;
ratings carry at most one decimal, where the two agree, so rounding of
exact halves is approximated by `round`. -/
def fmt1f (x : ℚ) : String :=
  let n : ℤ := round (x * 10)
  let a := n.natAbs
  (if n < 0 then "-" else "") ++ toString (a / 10) ++ "." ++ toString (a % 10)

/-- Digit triples of a reversed digit string. -/
def chunk3 : List Char → List (List Char)
  | [] => []
  | a :: b :: c :: rest => [a, b, c] :: chunk3 rest
  | l => [l]

/-- Formatting `f"{n:,}"` (thousands separators). -/
def fmtComma (n : ℕ) : String :=
  let rev := (toString n).data.reverse
  String.mk (List.intercalate [','] ((chunk3 rev).map List.reverse).reverse)

/-- Embedding of `EnhancedRecommendationService._generate_explanation`. -/
def generateExplanation (item : Item) (pq : ParsedQuery) (results : ResultSet) :
    String × List String :=
  let title :=
    if pyTruthyStr item.title then item.title.getD ""
    else item.name.getD "Unknown"
  let va := item.vote_average
  let vc := item.vote_count
  let mr : String × List String :=
    if pq.is_similarity_query = true ∧ pyTruthyStr results.original_title then
      let ot := results.original_title.getD ""
      if item.similarity_type = some .similar then
        ("Similar to " ++ ot, ["Shares themes and style with " ++ ot])
      else
        ("Fans of " ++ ot ++ " also enjoyed this",
         ["Recommended for viewers who liked " ++ ot])
    else
      let base : String × List String :=
        if 8 ≤ va then
          (title ++ " - Highly acclaimed (" ++ fmt1f va ++ "/10)",
           ["Exceptional rating of " ++ fmt1f va ++ "/10"])
        else if 7 ≤ va then
          (title ++ " - Well-received (" ++ fmt1f va ++ "/10)",
           ["Strong rating of " ++ fmt1f va ++ "/10"])
        else (title ++ " matches your criteria", [])
      let rs2 := base.2 ++
        (if pyTruthyStr pq.mood then
          ["Perfect for a " ++ pq.mood.getD "" ++ " mood"]
         else [])
      let rs3 := rs2 ++
        (if pq.keywords ≠ [] then
          ["Features " ++ String.intercalate ", " pq.keywords ++ " elements"]
         else [])
      (base.1, rs3)
  (mr.1, mr.2 ++
    (if 1000 < vc then ["Widely watched (" ++ fmtComma vc ++ " ratings)"] else []))

/-- Output `Movie` model (pydantic schema). -/
structure MovieOut where
  id : ℕ
  title : String
  overview : Option String
  poster_path : Option String
  backdrop_path : Option String
  media_type : String
  vote_average : ℚ
  vote_count : ℕ
  popularity : ℚ
  release_date : Option String
  runtime : Option ℕ
  genres : List ℕ
deriving DecidableEq, Repr

/-- Output `TVShow` model (pydantic schema). -/
structure TVShowOut where
  id : ℕ
  title : String
  overview : Option String
  poster_path : Option String
  backdrop_path : Option String
  media_type : String
  vote_average : ℚ
  vote_count : ℕ
  popularity : ℚ
  first_air_date : Option String
  genres : List ℕ
deriving DecidableEq, Repr

/-- Tagged union of the two content variants. -/
inductive ContentOut where
  | movie (m : MovieOut)
  | tv (t : TVShowOut)
deriving DecidableEq, Repr

/-- The `ContentRecommendation` schema. -/
structure ContentRecommendationOut where
  content : ContentOut
  relevance_score : ℚ
  explanation : String
  mood_match : Option ℚ := none
  reasons : List String
deriving DecidableEq, Repr

/-- The `RecommendationResponse` schema (the wall-clock `processing_time`
field is omitted). -/
structure RecommendationResponse where
  query : String
  total_results : ℕ
  page : ℕ
  total_pages : ℕ
  recommendations : List ContentRecommendationOut
  filters_applied : Filters
deriving DecidableEq, Repr

/-- The per-item classification and construction step of
`_process_results` (tv when tagged tv or carrying a first-air-date). -/
def buildContent (item : Item) : ContentOut :=
  if item.media_type == some "tv" || item.first_air_date.isSome then
    .tv { id := item.id
          title := item.name.getD (item.title.getD "")
          overview := item.overview
          poster_path := item.poster_path
          backdrop_path := item.backdrop_path
          media_type := "tv"
          vote_average := item.vote_average
          vote_count := item.vote_count
          popularity := item.popularity
          first_air_date := item.first_air_date
          genres := item.genres }
  else
    .movie { id := item.id
             title := item.title.getD ""
             overview := item.overview
             poster_path := item.poster_path
             backdrop_path := item.backdrop_path
             media_type := "movie"
             vote_average := item.vote_average
             vote_count := item.vote_count
             popularity := item.popularity
             release_date := item.release_date
             runtime := item.runtime
             genres := item.genres }

/-- One loop iteration of `_process_results`: build the content object,
score it, and attach the explanation. -/
def buildRec (results : ResultSet) (pq : ParsedQuery) (item : Item) :
    ContentRecommendationOut :=
  { content := buildContent item
    relevance_score := calcRelevance item pq
    explanation := (generateExplanation item pq results).1
    reasons := (generateExplanation item pq results).2 }

/-- The `recommendations.sort(key=relevance_score, reverse=True)` comparison. -/
def relLeB (a b : ContentRecommendationOut) : Bool :=
  decide (b.relevance_score ≤ a.relevance_score)

/-- Embedding of `EnhancedRecommendationService._process_results`: truncate to the
first `limit` fetched items, build a recommendation for each, then a
stable descending sort by relevance score. -/
def processResults (results : ResultSet) (pq : ParsedQuery) (limit : ℕ) :
    List ContentRecommendationOut :=
  ((results.results.take limit).map (buildRec results pq)).mergeSort relLeB

/-- Embedding of `EnhancedRecommendationService.get_recommendations`. -/
def getRecommendations (gw : Gateway) (currentYear : ℕ)
    (rq : RecommendationQuery) : RecommendationResponse :=
  let parsed := parseQuery currentYear rq.query
  let results :=
    if parsed.is_similarity_query = true ∧ parsed.specific_mentions ≠ [] then
      getSimilarContent gw (parsed.specific_mentions.headD "")
    else
      fetchContent gw parsed (buildFilters parsed rq.filters) rq.media_type rq.page
  { query := rq.query
    total_results := results.total_results
    page := rq.page
    total_pages := results.total_pages
    recommendations := processResults results parsed rq.limit
    filters_applied := parsed.filters }

/-! ### Filter building (simple service) -/

/-- Embedding of `RecommendationService._build_filters`. -/
def buildFiltersSimple (pq : ParsedQuerySimple) (user : Option Filters) : Filters :=
  let f : Filters := []
  let f :=
    if pq.genres ≠ [] then dictInsert f "with_genres" (.str (genreJoin pq.genres))
    else f
  let f :=
    match pq.time_preference with
    | some t =>
      if !t.isEmpty then
        let rt := (RUNTIME_PREFERENCES.lookup t).getD (0, 0)
        dictInsert (dictInsert f "with_runtime_gte" (.num rt.1))
          "with_runtime_lte" (.num rt.2)
      else f
    | none => f
  let f :=
    match pq.year_preference with
    | some y =>
      if y ≠ 0 then
        dictInsert
          (dictInsert f "primary_release_date_gte" (.str (toString y ++ "-01-01")))
          "primary_release_date_lte" (.str (toString y ++ "-12-31"))
      else f
    | none => f
  let f :=
    if pq.rating_preference = some "high" then
      dictInsert (dictInsert f "vote_average_gte" (.num (15/2)))
        "vote_count_gte" (.num 100)
    else if pq.rating_preference = some "underrated" then
      dictInsert
        (dictInsert (dictInsert f "vote_average_gte" (.num (13/2)))
          "vote_count_gte" (.num 50))
        "vote_count_lte" (.num 1000)
    else f
  match user with
  | some uf => dictUpdate f uf
  | none => f

/-! ### Auxiliary definitions used by the verification -/

/-- The all-empty gateway, used to instantiate hypotheses on concrete
inputs. -/
def emptyGateway : Gateway where
  search_multi := fun _ => {}
  get_similar_movies := fun _ => {}
  get_movie_recommendations := fun _ => {}
  get_similar_tv := fun _ => {}
  get_tv_recommendations := fun _ => {}
  discover_movies := fun _ _ => {}
  discover_tv := fun _ _ => {}

/-- Gateway instantiating the similarity path on concrete data: a movie
target with one similar item and two recommended items, one of which
collides with the similar item's id. -/
def simVerifyGateway : Gateway where
  search_multi := fun _ =>
    { results := [{ id := 1, media_type := some "movie", title := some "Target" }]
      total_results := 1
      total_pages := 1 }
  get_similar_movies := fun _ =>
    { results := [{ id := 2, vote_average := 5, vote_count := 4 }]
      total_results := 1
      total_pages := 1 }
  get_movie_recommendations := fun _ =>
    { results := [{ id := 3, vote_average := 8, vote_count := 100 },
                  { id := 2, vote_average := 9, vote_count := 1 }]
      total_results := 2
      total_pages := 1 }
  get_similar_tv := fun _ => {}
  get_tv_recommendations := fun _ => {}
  discover_movies := fun _ _ => {}
  discover_tv := fun _ _ => {}

/-- Provenance of a merge-map entry coming from the `similar` list. -/
def simProv (all : List Item) (ct : String) (p : ℕ × Item) : Prop :=
  p.2.id = p.1 ∧ p.2.similarity_type = some .similar ∧
    ∃ y ∈ all, p.2 = markItem y .similar ct

/-- Provenance of a merge-map entry coming from the `recommendations`
list: its id collides with no similar-list id. -/
def recProv (simIds : List ℕ) (all : List Item) (ct : String) (p : ℕ × Item) : Prop :=
  p.2.id = p.1 ∧ p.2.similarity_type = some .recommended ∧ p.1 ∉ simIds ∧
    ∃ y ∈ all, p.2 = markItem y .recommended ct

/-- The word-boundary condition to the left of a candidate token: the
character before it (the last of `pre`, or `prev` when `pre` is empty)
is absent or not a word character. -/
def preOk (prev : Option Char) (pre : List Char) : Prop :=
  boundB (pre.getLast?.or prev) = true

/-- The word-boundary condition to the right of a candidate token. -/
def postOk (post : List Char) : Prop :=
  boundB post.head? = true

/-- Token reading: `mid` is a four-digit token of the `19\d{2}|20\d{2}` alternation
whose numeric value is `y`. -/
def yearTokenRead (mid : List Char) (y : ℕ) : Prop :=
  ∃ d1 d2 d3 d4, mid = [d1, d2, d3, d4] ∧
    ((d1 = '1' ∧ d2 = '9') ∨ (d1 = '2' ∧ d2 = '0')) ∧
    d3.isDigit = true ∧ d4.isDigit = true ∧
    y = 1000 * digitVal d1 + 100 * digitVal d2 + 10 * digitVal d3 + digitVal d4

/-- Containment: `cs` contains a year token of value `y` with word boundaries on both
sides. -/
def hasYearTokenV (cs : List Char) (y : ℕ) : Prop :=
  ∃ pre mid post, cs = pre ++ (mid ++ post) ∧ yearTokenRead mid y ∧
    preOk none pre ∧ postOk post

/-! ### Lemmas: Python-dict association lists -/

section PyDict

variable {α β : Type} [BEq α] [LawfulBEq α]

theorem lookup_eq_none_of_not_any {m : List (α × β)} {k : α}
    (h : (List.any m fun p => p.1 == k) = false) : List.lookup k m = none := by
  induction m with
  | nil => rfl
  | cons p t ih =>
    obtain ⟨k1, v1⟩ := p
    simp only [List.any_cons, Bool.or_eq_false_iff] at h
    have hk : (k == k1) = false := by
      rw [beq_eq_false_iff_ne] at h ⊢
      exact fun hkk => h.1 hkk.symm
    simp [List.lookup, hk, ih h.2]

theorem lookup_isSome_iff (m : List (α × β)) (k : α) :
    (List.lookup k m).isSome = true ↔ k ∈ m.map Prod.fst := by
  induction m with
  | nil => simp [List.lookup]
  | cons p t ih =>
    obtain ⟨k1, v1⟩ := p
    by_cases hk : k = k1
    · subst hk; simp [List.lookup]
    · have : (k == k1) = false := beq_eq_false_iff_ne.mpr hk
      simp [List.lookup, this, ih, hk]

theorem lookup_map_replace (m : List (α × β)) (k : α) (v : β) :
    List.lookup k (m.map fun p => if p.1 == k then (k, v) else p) =
      if (List.any m fun p => p.1 == k) then some v else none := by
  induction m with
  | nil => simp
  | cons p t ih =>
    obtain ⟨k1, v1⟩ := p
    by_cases hk : k1 = k
    · subst hk
      rw [List.map_cons]
      simp only [beq_self_eq_true, if_true, List.any_cons, Bool.true_or]
      simp [List.lookup]
    · have h1 : (k1 == k) = false := beq_eq_false_iff_ne.mpr hk
      have h2 : (k == k1) = false :=
        beq_eq_false_iff_ne.mpr fun hkk => hk hkk.symm
      rw [List.map_cons]
      simp only [h1, List.any_cons, Bool.false_or, Bool.false_eq_true, if_false]
      simp [List.lookup, h2, ih]

theorem lookup_map_replace_ne (m : List (α × β)) (k k' : α) (v : β)
    (h : k' ≠ k) :
    List.lookup k' (m.map fun p => if p.1 == k then (k, v) else p) =
      List.lookup k' m := by
  have hne : (k' == k) = false := beq_eq_false_iff_ne.mpr h
  induction m with
  | nil => rfl
  | cons p t ih =>
    obtain ⟨k1, v1⟩ := p
    by_cases hk : k1 = k
    · subst hk
      rw [List.map_cons]
      simp only [beq_self_eq_true, if_true]
      simp [List.lookup, hne, ih]
    · have h1 : (k1 == k) = false := beq_eq_false_iff_ne.mpr hk
      rw [List.map_cons]
      simp only [h1, Bool.false_eq_true, if_false]
      cases hc : (k' == k1) <;> simp [List.lookup, hc, ih]

theorem lookup_pyAssign_self (m : List (α × β)) (k : α) (v : β) :
    List.lookup k (pyAssign m k v) = some v := by
  unfold pyAssign
  by_cases h : (List.any m fun p => p.1 == k) = true
  · rw [if_pos h, lookup_map_replace, if_pos h]
  · rw [if_neg h, List.lookup_append,
      lookup_eq_none_of_not_any (Bool.not_eq_true _ ▸ h)]
    simp [List.lookup]

theorem lookup_pyAssign_ne (m : List (α × β)) (k k' : α) (v : β) (h : k' ≠ k) :
    List.lookup k' (pyAssign m k v) = List.lookup k' m := by
  unfold pyAssign
  have hne : (k' == k) = false := beq_eq_false_iff_ne.mpr h
  split
  · exact lookup_map_replace_ne m k k' v h
  · rw [List.lookup_append]
    simp [List.lookup, hne]

theorem keys_pyAssign_of_any {m : List (α × β)} {k : α} {v : β}
    (h : (List.any m fun p => p.1 == k) = true) :
    (pyAssign m k v).map Prod.fst = m.map Prod.fst := by
  unfold pyAssign
  rw [if_pos h, List.map_map]
  apply List.map_congr_left
  intro p _
  by_cases hk : p.1 = k
  · simp [hk]
  · simp [beq_eq_false_iff_ne.mpr hk]

theorem any_keys_iff (m : List (α × β)) (k : α) :
    (List.any m fun p => p.1 == k) = true ↔ k ∈ m.map Prod.fst := by
  simp only [List.any_eq_true, List.mem_map, beq_iff_eq]

theorem mem_keys_pyAssign (m : List (α × β)) (k k' : α) (v : β) :
    k' ∈ (pyAssign m k v).map Prod.fst ↔ k' = k ∨ k' ∈ m.map Prod.fst := by
  by_cases h : (List.any m fun p => p.1 == k) = true
  · rw [keys_pyAssign_of_any h]
    constructor
    · exact Or.inr
    · rintro (rfl | hm)
      · exact (any_keys_iff m k').mp h
      · exact hm
  · unfold pyAssign
    rw [if_neg h]
    simp [or_comm]

theorem keys_nodup_pyAssign (m : List (α × β)) (k : α) (v : β)
    (h : (m.map Prod.fst).Nodup) : ((pyAssign m k v).map Prod.fst).Nodup := by
  by_cases ha : (List.any m fun p => p.1 == k) = true
  · rwa [keys_pyAssign_of_any ha]
  · unfold pyAssign
    rw [if_neg ha]
    have hk : k ∉ m.map Prod.fst := fun hm => ha ((any_keys_iff m k).mpr hm)
    simp only [List.map_append, List.map_cons, List.map_nil]
    refine List.Nodup.append h (List.nodup_singleton k) ?_
    intro a ha hb
    simp only [List.mem_singleton] at hb
    exact hk (hb ▸ ha)

theorem pyAssign_forall {P : α × β → Prop} {m : List (α × β)} {k : α} {v : β}
    (hm : ∀ p ∈ m, P p) (hv : P (k, v)) : ∀ p ∈ pyAssign m k v, P p := by
  intro p hp
  unfold pyAssign at hp
  split at hp
  · obtain ⟨q, hq, hfq⟩ := List.mem_map.mp hp
    by_cases hqk : q.1 = k
    · rw [if_pos (beq_iff_eq.mpr hqk)] at hfq
      exact hfq ▸ hv
    · rw [if_neg (by simp [hqk])] at hfq
      exact hfq ▸ hm q hq
  · rcases List.mem_append.mp hp with hm' | hv'
    · exact hm p hm'
    · simp only [List.mem_singleton] at hv'
      exact hv' ▸ hv

end PyDict

/-! ### Lemmas: filter-map updates -/

theorem fLookup_dictInsert_self (m : Filters) (k : String) (v : FilterVal) :
    fLookup (dictInsert m k v) k = some v :=
  lookup_pyAssign_self m k v

theorem fLookup_dictInsert_ne (m : Filters) (k k' : String) (v : FilterVal)
    (h : k' ≠ k) : fLookup (dictInsert m k v) k' = fLookup m k' :=
  lookup_pyAssign_ne m k k' v h

theorem fLookup_dictUpdate_not_mem (m u : Filters) (k : String)
    (h : k ∉ u.map Prod.fst) : fLookup (dictUpdate m u) k = fLookup m k := by
  induction u generalizing m with
  | nil => rfl
  | cons p t ih =>
    simp only [List.map_cons, List.mem_cons, not_or] at h
    calc fLookup (dictUpdate m (p :: t)) k
        = fLookup (dictUpdate (dictInsert m p.1 p.2) t) k := rfl
      _ = fLookup (dictInsert m p.1 p.2) k := ih _ h.2
      _ = fLookup m k := fLookup_dictInsert_ne _ _ _ _ h.1

theorem fLookup_dictUpdate_mem (m u : Filters) (k : String) (v : FilterVal)
    (hnd : (u.map Prod.fst).Nodup) (hmem : (k, v) ∈ u) :
    fLookup (dictUpdate m u) k = some v := by
  induction u generalizing m with
  | nil => cases hmem
  | cons p t ih =>
    simp only [List.map_cons, List.nodup_cons] at hnd
    rcases List.mem_cons.mp hmem with rfl | ht
    · calc fLookup (dictUpdate m ((k, v) :: t)) k
          = fLookup (dictUpdate (dictInsert m k v) t) k := rfl
        _ = fLookup (dictInsert m k v) k :=
            fLookup_dictUpdate_not_mem _ _ _ hnd.1
        _ = some v := fLookup_dictInsert_self _ _ _
    · exact ih (dictInsert m p.1 p.2) hnd.2 ht

/-! ### Lemmas: sort comparators -/

theorem wLeB_trans : ∀ a b c : Item, wLeB a b = true → wLeB b c = true →
    wLeB a c = true := by
  intro a b c
  simp only [wLeB, decide_eq_true_eq]
  intro h1 h2
  exact le_trans h2 h1

theorem wLeB_total : ∀ a b : Item, (wLeB a b || wLeB b a) = true := by
  intro a b
  simp only [wLeB, Bool.or_eq_true, decide_eq_true_eq]
  exact le_total _ _

theorem relLeB_trans : ∀ a b c : ContentRecommendationOut,
    relLeB a b = true → relLeB b c = true → relLeB a c = true := by
  intro a b c
  simp only [relLeB, decide_eq_true_eq]
  intro h1 h2
  exact le_trans h2 h1

theorem relLeB_total : ∀ a b : ContentRecommendationOut,
    (relLeB a b || relLeB b a) = true := by
  intro a b
  simp only [relLeB, Bool.or_eq_true, decide_eq_true_eq]
  exact le_total _ _

/-- The map `x ↦ x * |x|` is strictly monotone on the reals. -/
theorem mul_abs_lt_mul_abs {x y : ℝ} (h : x < y) : x * |x| < y * |y| := by
  rcases le_or_lt 0 x with hx | hx
  · rw [abs_of_nonneg hx, abs_of_nonneg (le_of_lt (lt_of_le_of_lt hx h))]
    nlinarith
  · rcases le_or_lt 0 y with hy | hy
    · rw [abs_of_neg hx, abs_of_nonneg hy]
      nlinarith
    · rw [abs_of_neg hx, abs_of_neg hy]
      nlinarith

theorem mul_abs_le_iff (x y : ℝ) : x * |x| ≤ y * |y| ↔ x ≤ y := by
  constructor
  · intro h
    by_contra hlt
    push_neg at hlt
    exact absurd h (not_le.mpr (mul_abs_lt_mul_abs hlt))
  · intro h
    rcases eq_or_lt_of_le h with rfl | hlt
    · exact le_refl _
    · exact le_of_lt (mul_abs_lt_mul_abs hlt)

/-- The signed square of the real sort key `va * sqrt vc` is `wKeySq`. -/
theorem wKeySq_real (x : Item) :
    ((x.vote_average : ℝ) * Real.sqrt (x.vote_count : ℝ)) *
        |(x.vote_average : ℝ) * Real.sqrt (x.vote_count : ℝ)| =
      ((wKeySq x : ℚ) : ℝ) := by
  rw [abs_mul, abs_of_nonneg (Real.sqrt_nonneg _)]
  have h : Real.sqrt (x.vote_count : ℝ) * Real.sqrt (x.vote_count : ℝ) =
      (x.vote_count : ℝ) := Real.mul_self_sqrt (by positivity)
  have h2 : (x.vote_average : ℝ) * Real.sqrt (x.vote_count : ℝ) *
      (|(x.vote_average : ℝ)| * Real.sqrt (x.vote_count : ℝ)) =
      (x.vote_average : ℝ) * |(x.vote_average : ℝ)| *
        (Real.sqrt (x.vote_count : ℝ) * Real.sqrt (x.vote_count : ℝ)) := by
    ring
  rw [h2, h, wKeySq]
  push_cast
  ring

/-- The executable comparison `wLeB` orders items exactly as the float
sort key `vote_average * vote_count ** 0.5` of the source. -/
theorem wLeB_iff_sqrt (a b : Item) :
    wLeB a b = true ↔
      (b.vote_average : ℝ) * Real.sqrt (b.vote_count : ℝ) ≤
        (a.vote_average : ℝ) * Real.sqrt (a.vote_count : ℝ) := by
  rw [wLeB, decide_eq_true_eq,
    show (wKeySq b ≤ wKeySq a) ↔ (((wKeySq b : ℚ) : ℝ) ≤ ((wKeySq a : ℚ) : ℝ)) from
      Rat.cast_le.symm,
    ← wKeySq_real, ← wKeySq_real, mul_abs_le_iff]

/-! ### Lemmas: the mood scan -/

theorem findMood_first (ql : List Char) :
    ∀ l : List (String × List ℕ),
      (∃ kv ∈ l, containsSub kv.1.data ql = true) →
      ∃ i : Fin l.length,
        findMood ql l = some (l.get i) ∧
        containsSub (l.get i).1.data ql = true ∧
        ∀ j : Fin l.length, j.val < i.val →
          containsSub (l.get j).1.data ql = false := by
  intro l
  induction l with
  | nil => rintro ⟨kv, hkv, -⟩; cases hkv
  | cons p t ih =>
    intro hex
    by_cases hp : containsSub p.1.data ql = true
    · exact ⟨⟨0, Nat.succ_pos _⟩, by simp [findMood, hp], by simpa using hp,
        fun j hj => absurd hj (Nat.not_lt_zero _)⟩
    · have hp' : containsSub p.1.data ql = false := by
        cases hc : containsSub p.1.data ql
        · rfl
        · exact absurd hc hp
      obtain ⟨kv, hkv, hc⟩ := hex
      rcases List.mem_cons.mp hkv with rfl | ht
      · exact absurd hc hp
      · obtain ⟨i, h1, h2, h3⟩ := ih ⟨kv, ht, hc⟩
        refine ⟨i.succ, ?_, by simpa using h2, ?_⟩
        · simpa [findMood, hp'] using h1
        · intro j hj
          match j with
          | ⟨0, _⟩ => simpa using hp'
          | ⟨j' + 1, hj'⟩ =>
            have := h3 ⟨j', Nat.lt_of_succ_lt_succ hj'⟩
              (Nat.lt_of_succ_lt_succ hj)
            simpa using this

/-! ### Lemmas: keys of the parser-derived auxiliary filters -/

theorem parseQuery_filters_lookup (cy : ℕ) (q : String) (k : String)
    (h1 : k ≠ "vote_average_gte") (h2 : k ≠ "vote_count_gte")
    (h3 : k ≠ "primary_release_date_gte") (h4 : k ≠ "primary_release_date_lte") :
    fLookup (parseQuery cy q).filters k = none := by
  simp only [parseQuery]
  split_ifs
  all_goals
    first
    | rfl
    | (simp only [fLookup_dictInsert_ne _ _ _ _ h1, fLookup_dictInsert_ne _ _ _ _ h2,
        fLookup_dictInsert_ne _ _ _ _ h3, fLookup_dictInsert_ne _ _ _ _ h4]
       rfl)

/-! ### Claim theorems -/

/-- C1: for every candidate item and every parsed query, the relevance
score computed by `_calculate_relevance` of the enhanced service lies in
`[0, 1]`: the base is `0.5`, every bonus is non-negative (so the score
never drops below the base), and the final value is clamped to at most
`1.0`. -/
theorem calcRelevance_bounded (item : Item) (pq : ParsedQuery) :
    0 ≤ calcRelevance item pq ∧ calcRelevance item pq ≤ 1 := by
  constructor
  · simp only [calcRelevance]
    refine le_min ?_ (by norm_num)
    split_ifs <;> positivity
  · simp only [calcRelevance]
    exact min_le_right _ _

/-- C4: whenever the lowered query contains at least one mood key, the
enhanced parser records exactly the first matching key in the declared
order of `MOOD_GENRE_MAP`, every earlier key being absent from the query;
in particular any query containing "happy" gets mood "happy" (so a query
with both "happy" and "sad" yields "happy"). -/
theorem parseQuery_mood_first_match (cy : ℕ) (q : String)
    (h : ∃ kv ∈ MOOD_GENRE_MAP, containsSub kv.1.data (lowerChars q.data) = true) :
    (∃ i : Fin MOOD_GENRE_MAP.length,
      (parseQuery cy q).mood = some (MOOD_GENRE_MAP.get i).1 ∧
      containsSub (MOOD_GENRE_MAP.get i).1.data (lowerChars q.data) = true ∧
      ∀ j : Fin MOOD_GENRE_MAP.length, j.val < i.val →
        containsSub (MOOD_GENRE_MAP.get j).1.data (lowerChars q.data) = false) ∧
    (containsSub "happy".data (lowerChars q.data) = true →
      (parseQuery cy q).mood = some "happy") := by
  constructor
  · obtain ⟨i, h1, h2, h3⟩ := findMood_first (lowerChars q.data) MOOD_GENRE_MAP h
    refine ⟨i, ?_, h2, h3⟩
    show (findMood (lowerChars q.data) MOOD_GENRE_MAP).map (·.1) =
      some (MOOD_GENRE_MAP.get i).1
    rw [h1]
    rfl
  · intro hh
    show (findMood (lowerChars q.data) MOOD_GENRE_MAP).map (·.1) = some "happy"
    rw [show findMood (lowerChars q.data) MOOD_GENRE_MAP =
        some ("happy", [35, 10749, 16]) from by
      simp [findMood, MOOD_GENRE_MAP, hh]]
    rfl

theorem parseQuery_mood_first_match_witness :
    (∃ kv ∈ MOOD_GENRE_MAP,
      containsSub kv.1.data (lowerChars "Happy and sad movies".data) = true) ∧
    (parseQuery 2024 "Happy and sad movies").mood = some "happy" :=
  ⟨by decide,
   (parseQuery_mood_first_match 2024 "Happy and sad movies" (by decide)).2
     (by decide)⟩

/-- C5: the genre-id collection of every `ParsedQuery` produced by the
enhanced `_parse_query` is duplicate-free, and the query
"action thriller action" yields exactly the genre set `{28, 53}`. -/
theorem parseQuery_genres_nodup (cy : ℕ) (q : String) :
    (parseQuery cy q).genres.Nodup ∧
    (parseQuery cy "action thriller action").genres = [28, 53] := by
  constructor
  · obtain ⟨l, hl⟩ : ∃ l : List ℕ, (parseQuery cy q).genres = l.dedup := ⟨_, rfl⟩
    rw [hl]
    exact List.nodup_dedup l
  · rfl

/-- C6: `_build_filters` maps every caller-supplied key to the caller's
value (the override replaces any parser-derived value for the same key),
and — for keys the caller does not touch — carries a comma-joined
`with_genres` entry exactly when the parsed genre set is non-empty. -/
theorem buildFilters_override (cy : ℕ) (q : String) (uf : Filters)
    (hnd : (uf.map Prod.fst).Nodup) :
    (∀ kv ∈ uf,
      fLookup (buildFilters (parseQuery cy q) (some uf)) kv.1 = some kv.2) ∧
    ("with_genres" ∉ uf.map Prod.fst →
      fLookup (buildFilters (parseQuery cy q) (some uf)) "with_genres" =
        (if (parseQuery cy q).genres = [] then none
         else some (.str (genreJoin (parseQuery cy q).genres)))) := by
  constructor
  · intro kv hkv
    exact fLookup_dictUpdate_mem _ uf kv.1 kv.2 hnd (by simpa using hkv)
  · intro hw
    have hb : buildFilters (parseQuery cy q) (some uf) =
        dictUpdate
          (if (parseQuery cy q).genres ≠ [] then
            dictInsert (parseQuery cy q).filters "with_genres"
              (.str (genreJoin (parseQuery cy q).genres))
          else (parseQuery cy q).filters) uf := rfl
    rw [hb, fLookup_dictUpdate_not_mem _ _ _ hw]
    by_cases hg : (parseQuery cy q).genres = []
    · simp [hg,
        parseQuery_filters_lookup cy q "with_genres" (by decide) (by decide)
          (by decide) (by decide)]
    · simp [hg, fLookup_dictInsert_self]

theorem buildFilters_override_witness :
    ((([("vote_average_gte", FilterVal.num 9)] : Filters).map Prod.fst).Nodup) ∧
    fLookup
      (buildFilters (parseQuery 2024 "best action movies")
        (some [("vote_average_gte", FilterVal.num 9)]))
      "vote_average_gte" = some (FilterVal.num 9) :=
  ⟨by decide,
   (buildFilters_override 2024 "best action movies"
      [("vote_average_gte", FilterVal.num 9)] (by decide)).1
     ("vote_average_gte", FilterVal.num 9) (by decide)⟩

/-- C8: when the gateway search yields no hit of kind movie or tv (in
particular when it yields nothing at all), `_get_similar_content` returns
the well-formed empty result set (empty list, zero totals) instead of
failing. -/
theorem getSimilarContent_empty_target (gw : Gateway) (title : String)
    (h : firstMovieTv (gw.search_multi title).results = none) :
    getSimilarContent gw title =
      { results := [], total_results := 0, total_pages := 0 } := by
  simp only [getSimilarContent]
  by_cases he : (gw.search_multi title).results.isEmpty
  · rw [if_pos he]
  · rw [if_neg he, h]

theorem getSimilarContent_empty_target_witness :
    firstMovieTv (emptyGateway.search_multi "Breaking Bad").results = none ∧
    getSimilarContent emptyGateway "Breaking Bad" =
      { results := [], total_results := 0, total_pages := 0 } :=
  ⟨rfl, getSimilarContent_empty_target emptyGateway "Breaking Bad" rfl⟩

/-- C9: the two scoring implementations are not extensionally equal:
they disagree (a) on an item whose popularity exceeds 100 (the simple
service pays a popularity bonus, the enhanced one does not), (b) on the
genre-overlap weight (0.2 versus 0.3) for a full single-genre match, and
(c) on a similarity-tagged item, where only the enhanced service
overrides the genre score with 0.9. -/
theorem relevance_implementations_differ :
    (calcRelevanceSimple { id := 1, popularity := 200 }
        { original := "", genres := [], keywords := [], mood := none,
          time_preference := none, year_preference := none,
          rating_preference := none, specific_mentions := [] } ≠
      calcRelevance { id := 1, popularity := 200 }
        { original := "", genres := [], keywords := [], mood := none,
          is_similarity_query := false, specific_mentions := [],
          filters := [] }) ∧
    (calcRelevanceSimple { id := 1, genre_ids := some [28] }
        { original := "", genres := [28], keywords := [], mood := none,
          time_preference := none, year_preference := none,
          rating_preference := none, specific_mentions := [] } ≠
      calcRelevance { id := 1, genre_ids := some [28] }
        { original := "", genres := [28], keywords := [], mood := none,
          is_similarity_query := false, specific_mentions := [],
          filters := [] }) ∧
    (calcRelevanceSimple
        { id := 1, genre_ids := some [28], similarity_type := some .similar }
        { original := "", genres := [28], keywords := [], mood := none,
          time_preference := none, year_preference := none,
          rating_preference := none, specific_mentions := [] } ≠
      calcRelevance
        { id := 1, genre_ids := some [28], similarity_type := some .similar }
        { original := "", genres := [28], keywords := [], mood := none,
          is_similarity_query := true, specific_mentions := [],
          filters := [] }) := by
  refine ⟨?_, ?_, ?_⟩ <;>
    norm_num [calcRelevanceSimple, calcRelevance, genreOverlap, itemGenres,
      pyTruthyStr]

/-- C10: on the non-similarity path of the enhanced service, the
`filters_applied` field of the response is exactly the parser-derived
auxiliary filter map: it can only hold the four rating/date keys, never a
`with_genres` entry, and it is independent of the caller-supplied filter
overrides — although the filter set actually passed to the gateway fetch
is the full `_build_filters` output (genre filter and overrides
included). -/
theorem getRecommendations_filters_applied_aux (gw : Gateway) (cy : ℕ)
    (rq : RecommendationQuery)
    (h : ¬((parseQuery cy rq.query).is_similarity_query = true ∧
          (parseQuery cy rq.query).specific_mentions ≠ [])) :
    (getRecommendations gw cy rq).filters_applied =
        (parseQuery cy rq.query).filters ∧
    fLookup (getRecommendations gw cy rq).filters_applied "with_genres" =
        none ∧
    (∀ k : String, k ≠ "vote_average_gte" → k ≠ "vote_count_gte" →
      k ≠ "primary_release_date_gte" → k ≠ "primary_release_date_lte" →
      fLookup (getRecommendations gw cy rq).filters_applied k = none) ∧
    (∀ uf : Option Filters,
      (getRecommendations gw cy { rq with filters := uf }).filters_applied =
        (getRecommendations gw cy rq).filters_applied) ∧
    (getRecommendations gw cy rq).recommendations =
      processResults
        (fetchContent gw (parseQuery cy rq.query)
          (buildFilters (parseQuery cy rq.query) rq.filters)
          rq.media_type rq.page)
        (parseQuery cy rq.query) rq.limit := by
  have hfa : (getRecommendations gw cy rq).filters_applied =
      (parseQuery cy rq.query).filters := rfl
  refine ⟨hfa, ?_, ?_, fun _ => rfl, ?_⟩
  · rw [hfa]
    exact parseQuery_filters_lookup cy rq.query _ (by decide) (by decide)
      (by decide) (by decide)
  · intro k h1 h2 h3 h4
    rw [hfa]
    exact parseQuery_filters_lookup cy rq.query k h1 h2 h3 h4
  · show processResults
      (if (parseQuery cy rq.query).is_similarity_query = true ∧
          (parseQuery cy rq.query).specific_mentions ≠ [] then
        getSimilarContent gw ((parseQuery cy rq.query).specific_mentions.headD "")
      else
        fetchContent gw (parseQuery cy rq.query)
          (buildFilters (parseQuery cy rq.query) rq.filters)
          rq.media_type rq.page)
      (parseQuery cy rq.query) rq.limit = _
    rw [if_neg h]

theorem getRecommendations_filters_applied_aux_witness :
    (¬((parseQuery 2024 "best action movies").is_similarity_query = true ∧
        (parseQuery 2024 "best action movies").specific_mentions ≠ [])) ∧
    (getRecommendations emptyGateway 2024
        { query := "best action movies" }).filters_applied =
      (parseQuery 2024 "best action movies").filters :=
  ⟨by decide,
   (getRecommendations_filters_applied_aux emptyGateway 2024
      { query := "best action movies" } (by decide)).1⟩

/-- C3: `_process_results` scores only the first `limit` items in fetch
order — the returned list is a permutation of the per-item builds of
exactly that prefix — and the final list is the stable descending sort of
those items by relevance score: it is sorted descending, and for every
score value the items carrying it appear in their original fetch order
(the filter of the output at any score equals the filter of the truncated
input). -/
theorem processResults_truncate_sort_stable (results : ResultSet)
    (pq : ParsedQuery) (limit : ℕ) :
    (processResults results pq limit).Pairwise
      (fun a b => b.relevance_score ≤ a.relevance_score) ∧
    (processResults results pq limit).Perm
      ((results.results.take limit).map (buildRec results pq)) ∧
    ∀ s : ℚ,
      (processResults results pq limit).filter
          (fun r => decide (r.relevance_score = s)) =
        ((results.results.take limit).map (buildRec results pq)).filter
          (fun r => decide (r.relevance_score = s)) := by
  refine ⟨?_, List.mergeSort_perm _ _, ?_⟩
  · have h := List.sorted_mergeSort relLeB_trans relLeB_total
      ((results.results.take limit).map (buildRec results pq))
    exact h.imp (fun hab => by simpa [relLeB] using hab)
  · intro s
    set scored := (results.results.take limit).map (buildRec results pq) with hscored
    set p : ContentRecommendationOut → Bool :=
      fun r => decide (r.relevance_score = s) with hp
    have hpw : (scored.filter p).Pairwise (fun a b => relLeB a b = true) := by
      apply List.pairwise_of_forall_mem_list
      intro a ha b hb
      have ha' : a.relevance_score = s :=
        of_decide_eq_true (List.mem_filter.mp ha).2
      have hb' : b.relevance_score = s :=
        of_decide_eq_true (List.mem_filter.mp hb).2
      simp [relLeB, ha', hb']
    have hsub : (scored.filter p).Sublist (scored.mergeSort relLeB) :=
      List.sublist_mergeSort relLeB_trans relLeB_total hpw
        (List.filter_sublist _)
    have hidem : (scored.filter p).filter p = scored.filter p :=
      List.filter_eq_self.mpr fun a ha => (List.mem_filter.mp ha).2
    have hsub2 : (scored.filter p).Sublist ((scored.mergeSort relLeB).filter p) := by
      have := List.Sublist.filter p hsub
      rwa [hidem] at this
    have hlen : ((scored.mergeSort relLeB).filter p).length =
        (scored.filter p).length :=
      ((List.mergeSort_perm scored relLeB).filter p).length_eq
    exact (List.Sublist.eq_of_length hsub2 hlen.symm).symm

/-! ### Lemmas: the similar/recommended merge map -/

theorem foldSim_forall (ct : String) (all : List Item) :
    ∀ (l : List Item), (∀ x ∈ l, x ∈ all) →
      ∀ (m : List (ℕ × Item)), (∀ p ∈ m, simProv all ct p) →
        ∀ p ∈ l.foldl (fun m x => dictAssign m x.id (markItem x .similar ct)) m,
          simProv all ct p := by
  intro l
  induction l with
  | nil => exact fun _ m hm p hp => hm p hp
  | cons x tl ih =>
    intro hl m hm p hp
    exact ih (fun y hy => hl y (List.mem_cons_of_mem _ hy)) _
      (pyAssign_forall hm ⟨rfl, rfl, x, hl x (List.mem_cons_self _ _), rfl⟩) p hp

theorem foldSim_keys (ct : String) :
    ∀ (l : List Item) (m : List (ℕ × Item)) (k : ℕ),
      k ∈ (l.foldl (fun m x => dictAssign m x.id (markItem x .similar ct)) m).map
          Prod.fst ↔
        k ∈ m.map Prod.fst ∨ k ∈ l.map (·.id) := by
  intro l
  induction l with
  | nil => simp
  | cons x tl ih =>
    intro m k
    rw [List.foldl_cons, ih]
    simp only [dictAssign, mem_keys_pyAssign, List.map_cons, List.mem_cons]
    tauto

theorem foldSim_nodup (ct : String) :
    ∀ (l : List Item) (m : List (ℕ × Item)), (m.map Prod.fst).Nodup →
      ((l.foldl (fun m x => dictAssign m x.id (markItem x .similar ct)) m).map
        Prod.fst).Nodup := by
  intro l
  induction l with
  | nil => exact fun m hm => hm
  | cons x tl ih =>
    intro m hm
    exact ih _ (keys_nodup_pyAssign m x.id _ hm)

theorem foldRec_forall (ct : String) (simIds : List ℕ) (allS allR : List Item) :
    ∀ (l : List Item), (∀ x ∈ l, x ∈ allR) →
      ∀ (m : List (ℕ × Item)),
        (∀ p ∈ m, simProv allS ct p ∨ recProv simIds allR ct p) →
        (∀ k ∈ simIds, k ∈ m.map Prod.fst) →
        ∀ p ∈ l.foldl
            (fun m x =>
              if (List.lookup x.id m).isSome then m
              else m ++ [(x.id, markItem x .recommended ct)]) m,
          simProv allS ct p ∨ recProv simIds allR ct p := by
  intro l
  induction l with
  | nil => exact fun _ m hm _ p hp => hm p hp
  | cons x tl ih =>
    intro hl m hm hkeys p hp
    rw [List.foldl_cons] at hp
    by_cases hlk : (List.lookup x.id m).isSome = true
    · rw [if_pos hlk] at hp
      exact ih (fun y hy => hl y (List.mem_cons_of_mem _ hy)) m hm hkeys p hp
    · rw [if_neg hlk] at hp
      refine ih (fun y hy => hl y (List.mem_cons_of_mem _ hy)) _ ?_ ?_ p hp
      · intro q hq
        rcases List.mem_append.mp hq with hq' | hq'
        · exact hm q hq'
        · simp only [List.mem_singleton] at hq'
          subst hq'
          refine Or.inr ⟨rfl, rfl, ?_, x, hl x (List.mem_cons_self _ _), rfl⟩
          intro hin
          exact hlk ((lookup_isSome_iff m x.id).mpr (hkeys _ hin))
      · intro k hk
        rw [List.map_append, List.mem_append]
        exact Or.inl (hkeys k hk)

theorem foldRec_keys (ct : String) :
    ∀ (l : List Item) (m : List (ℕ × Item)) (k : ℕ),
      k ∈ (l.foldl
            (fun m x =>
              if (List.lookup x.id m).isSome then m
              else m ++ [(x.id, markItem x .recommended ct)]) m).map Prod.fst ↔
        k ∈ m.map Prod.fst ∨ k ∈ l.map (·.id) := by
  intro l
  induction l with
  | nil => simp
  | cons x tl ih =>
    intro m k
    rw [List.foldl_cons]
    by_cases hlk : (List.lookup x.id m).isSome = true
    · rw [if_pos hlk, ih]
      have hx : x.id ∈ m.map Prod.fst := (lookup_isSome_iff m x.id).mp hlk
      simp only [List.map_cons, List.mem_cons]
      constructor
      · tauto
      · rintro (h | rfl | h)
        · exact Or.inl h
        · exact Or.inl hx
        · exact Or.inr h
    · rw [if_neg hlk, ih]
      simp only [List.map_append, List.mem_append, List.map_cons, List.map_nil,
        List.mem_singleton, List.mem_cons]
      tauto

theorem foldRec_nodup (ct : String) :
    ∀ (l : List Item) (m : List (ℕ × Item)), (m.map Prod.fst).Nodup →
      ((l.foldl
          (fun m x =>
            if (List.lookup x.id m).isSome then m
            else m ++ [(x.id, markItem x .recommended ct)]) m).map
        Prod.fst).Nodup := by
  intro l
  induction l with
  | nil => exact fun m hm => hm
  | cons x tl ih =>
    intro m hm
    rw [List.foldl_cons]
    by_cases hlk : (List.lookup x.id m).isSome = true
    · rw [if_pos hlk]
      exact ih m hm
    · rw [if_neg hlk]
      refine ih _ ?_
      rw [List.map_append]
      refine List.Nodup.append hm (List.nodup_singleton _) ?_
      intro a ha hb
      simp only [List.map_cons, List.map_nil, List.mem_singleton] at hb
      subst hb
      exact hlk ((lookup_isSome_iff m _).mpr ha)

theorem mergeMap_forall (sims rcs : List Item) (ct : String) :
    ∀ p ∈ mergeMap sims rcs ct,
      simProv sims ct p ∨ recProv (sims.map (·.id)) rcs ct p := by
  intro p hp
  refine foldRec_forall ct (sims.map (·.id)) sims rcs rcs (fun _ h => h) _
    (fun q hq => Or.inl (foldSim_forall ct sims sims (fun _ h => h) []
      (by simp) q hq)) ?_ p hp
  intro k hk
  rw [foldSim_keys]
  exact Or.inr hk

theorem mergeMap_keys (sims rcs : List Item) (ct : String) (k : ℕ) :
    k ∈ (mergeMap sims rcs ct).map Prod.fst ↔
      k ∈ sims.map (·.id) ∨ k ∈ rcs.map (·.id) := by
  show k ∈ (rcs.foldl _ (sims.foldl _ [])).map Prod.fst ↔ _
  rw [foldRec_keys, foldSim_keys]
  simp

theorem mergeMap_nodup (sims rcs : List Item) (ct : String) :
    ((mergeMap sims rcs ct).map Prod.fst).Nodup := by
  show ((rcs.foldl _ (sims.foldl _ [])).map Prod.fst).Nodup
  exact foldRec_nodup ct rcs _ (foldSim_nodup ct sims [] (by simp))

/-- Length of a fst-predicate filter equals the key-list filter length. -/
theorem length_filter_fst {γ : Type} (m : List (ℕ × γ)) (b : ℕ → Bool) :
    (m.filter (fun p => b p.1)).length = ((m.map Prod.fst).filter b).length := by
  induction m with
  | nil => rfl
  | cons p tl ih => cases hb : b p.1 <;> simp [List.filter_cons, hb, ih]

/-- Duplicate-free lists with the same members have filters of the same
length. -/
theorem length_filter_eq_of_nodup {L M : List ℕ} (hL : L.Nodup) (hM : M.Nodup)
    (hiff : ∀ k, k ∈ L ↔ k ∈ M) (b : ℕ → Bool) :
    (L.filter b).length = (M.filter b).length := by
  have hfin : L.toFinset = M.toFinset := by
    ext k
    simp [hiff k]
  rw [← List.toFinset_card_of_nodup (hL.filter b),
    ← List.toFinset_card_of_nodup (hM.filter b),
    List.toFinset_filter, List.toFinset_filter, hfin]

/-- C2: when the similarity search resolves to a movie/tv target `t`,
`_get_similar_content` (i) excludes `t`'s own id from the output,
(ii) returns a list sorted descending by `vote_average * sqrt(vote_count)`,
(iii) reports `total_pages = 1`, (iv) reports `total_results` as the
pre-truncation count — the number of distinct ids over the `similar` and
`recommendations` lists minus the target's id, (v) truncates the output to
the top 20 of that count, (vi) every output item comes from the merged map
with similar-tagged entries taking precedence over recommended-tagged ones
on id collision (a recommended-tagged item's id collides with no
similar-list id), and (vii) the output is the head of a full descending
arrangement of the pre-truncation count of merged items. -/
theorem getSimilarContent_merge_spec (gw : Gateway) (title : String) (t : Item)
    (ht : firstMovieTv (gw.search_multi title).results = some t) :
    (∀ x ∈ (getSimilarContent gw title).results, x.id ≠ t.id) ∧
    (getSimilarContent gw title).results.Pairwise
      (fun a b => (b.vote_average : ℝ) * Real.sqrt (b.vote_count : ℝ) ≤
        (a.vote_average : ℝ) * Real.sqrt (a.vote_count : ℝ)) ∧
    (getSimilarContent gw title).total_pages = 1 ∧
    (getSimilarContent gw title).total_results =
      (((simSource gw t).results.map (·.id) ++
          (recSource gw t).results.map (·.id)).dedup.filter
        (fun k => !(k == t.id))).length ∧
    (getSimilarContent gw title).results.length =
      min 20 (getSimilarContent gw title).total_results ∧
    (∀ x ∈ (getSimilarContent gw title).results,
      (x.similarity_type = some .similar ∧
        ∃ y ∈ (simSource gw t).results,
          x = markItem y .similar (t.media_type.getD "")) ∨
      (x.similarity_type = some .recommended ∧
        x.id ∉ (simSource gw t).results.map (·.id) ∧
        ∃ y ∈ (recSource gw t).results,
          x = markItem y .recommended (t.media_type.getD ""))) ∧
    (∃ rest : List Item,
      ((getSimilarContent gw title).results ++ rest).Pairwise
        (fun a b => (b.vote_average : ℝ) * Real.sqrt (b.vote_count : ℝ) ≤
          (a.vote_average : ℝ) * Real.sqrt (a.vote_count : ℝ)) ∧
      (getSimilarContent gw title).results.length + rest.length =
        (getSimilarContent gw title).total_results ∧
      ∀ y ∈ rest, y.id ≠ t.id) := by
  have hne : (gw.search_multi title).results.isEmpty = false := by
    cases hres : (gw.search_multi title).results with
    | nil => rw [hres] at ht; simp [firstMovieTv] at ht
    | cons a l => simp
  have hout : getSimilarContent gw title =
      { results := (rankedItems gw t).take 20
        total_results := (rankedItems gw t).length
        total_pages := 1
        original_title := pyOrStr t.title t.name
        original_type := some (t.media_type.getD "") } := by
    simp only [getSimilarContent, hne, Bool.false_eq_true, if_false, ht]
  have hsorted : (rankedItems gw t).Pairwise (fun a b => wLeB a b = true) :=
    List.sorted_mergeSort wLeB_trans wLeB_total _
  have hperm : (rankedItems gw t).Perm ((prunedPairs gw t).map (·.2)) :=
    List.mergeSort_perm _ _
  have hitem : ∀ x ∈ rankedItems gw t,
      x.id ≠ t.id ∧
      ((x.similarity_type = some .similar ∧
        ∃ y ∈ (simSource gw t).results,
          x = markItem y .similar (t.media_type.getD "")) ∨
      (x.similarity_type = some .recommended ∧
        x.id ∉ (simSource gw t).results.map (·.id) ∧
        ∃ y ∈ (recSource gw t).results,
          x = markItem y .recommended (t.media_type.getD ""))) := by
    intro x hx
    have hx' : x ∈ (prunedPairs gw t).map (·.2) := hperm.mem_iff.mp hx
    obtain ⟨p, hp, rfl⟩ := List.mem_map.mp hx'
    obtain ⟨hpm, hpne⟩ := List.mem_filter.mp hp
    have hneq : p.1 ≠ t.id := by simpa using hpne
    have hdisj := mergeMap_forall _ _ _ p hpm
    constructor
    · rcases hdisj with ⟨hid, -, -⟩ | ⟨hid, -, -, -⟩ <;> rw [hid] <;> exact hneq
    · rcases hdisj with ⟨hid, htag, hy⟩ | ⟨hid, htag, hnid, hy⟩
      · exact Or.inl ⟨htag, hy⟩
      · exact Or.inr ⟨htag, hid ▸ hnid, hy⟩
  rw [hout]
  dsimp only
  refine ⟨?_, ?_, rfl, ?_, ?_, ?_, ?_⟩
  · intro x hx
    exact (hitem x (List.Sublist.mem hx (List.take_sublist _ _))).1
  · exact (List.Pairwise.sublist (List.take_sublist _ _) hsorted).imp
      (fun h => (wLeB_iff_sqrt _ _).mp h)
  · have hlen1 : (rankedItems gw t).length = (prunedPairs gw t).length := by
      rw [hperm.length_eq, List.length_map]
    have hlen2 : (prunedPairs gw t).length =
        (((mergeMap (simSource gw t).results (recSource gw t).results
            (t.media_type.getD "")).map Prod.fst).filter
          (fun k => !(k == t.id))).length :=
      length_filter_fst
        (mergeMap (simSource gw t).results (recSource gw t).results
          (t.media_type.getD ""))
        (fun k => !(k == t.id))
    have hlen3 : (((mergeMap (simSource gw t).results (recSource gw t).results
            (t.media_type.getD "")).map Prod.fst).filter
          (fun k => !(k == t.id))).length =
        (((simSource gw t).results.map (·.id) ++
            (recSource gw t).results.map (·.id)).dedup.filter
          (fun k => !(k == t.id))).length := by
      refine length_filter_eq_of_nodup (mergeMap_nodup _ _ _)
        (List.nodup_dedup _) ?_ _
      intro k
      rw [mergeMap_keys, List.mem_dedup, List.mem_append]
    rw [hlen1, hlen2, hlen3]
  · simp [List.length_take]
  · intro x hx
    exact (hitem x (List.Sublist.mem hx (List.take_sublist _ _))).2
  · refine ⟨(rankedItems gw t).drop 20, ?_, ?_, ?_⟩
    · rw [List.take_append_drop]
      exact hsorted.imp (fun h => (wLeB_iff_sqrt _ _).mp h)
    · rw [List.length_take, List.length_drop]
      omega
    · intro y hy
      exact (hitem y (List.Sublist.mem hy (List.drop_sublist _ _))).1

theorem getSimilarContent_merge_spec_witness :
    firstMovieTv (simVerifyGateway.search_multi "Target").results =
      some { id := 1, media_type := some "movie", title := some "Target" } ∧
    (getSimilarContent simVerifyGateway "Target").total_pages = 1 :=
  ⟨rfl,
   (getSimilarContent_merge_spec simVerifyGateway "Target"
      { id := 1, media_type := some "movie", title := some "Target" }
      rfl).2.2.1⟩

/-! ### Lemmas: the year-token scan `\b(19\d{2}|20\d{2})\b` -/

theorem digitVal_le_nine {c : Char} (h : c.isDigit = true) : digitVal c ≤ 9 := by
  simp only [Char.isDigit, Bool.and_eq_true, decide_eq_true_eq] at h
  obtain ⟨-, h2⟩ := h
  have h2' : c.val.toNat ≤ 57 := by
    rw [UInt32.le_def] at h2
    exact_mod_cast h2
  simp only [digitVal, Char.toNat]
  omega

theorem yearTokenRead_bounds {mid : List Char} {y : ℕ}
    (h : yearTokenRead mid y) : 1900 ≤ y ∧ y ≤ 2099 := by
  obtain ⟨d1, d2, d3, d4, -, h12, h3, h4, rfl⟩ := h
  have b3 : digitVal d3 ≤ 9 := digitVal_le_nine h3
  have b4 : digitVal d4 ≤ 9 := digitVal_le_nine h4
  rcases h12 with ⟨rfl, rfl⟩ | ⟨rfl, rfl⟩ <;>
    simp only [show digitVal '1' = 1 from rfl, show digitVal '9' = 9 from rfl,
      show digitVal '2' = 2 from rfl, show digitVal '0' = 0 from rfl] <;>
    omega

/-- Definitional unfolding of `yearAt` at a four-character position. -/
theorem yearAt_cons4 (prev : Option Char) (d1 d2 d3 d4 : Char) (post : List Char) :
    yearAt prev (d1 :: d2 :: d3 :: d4 :: post) =
      (if boundB prev &&
          ((d1 == '1' && d2 == '9') || (d1 == '2' && d2 == '0')) &&
          d3.isDigit && d4.isDigit && boundB post.head? then
        some (1000 * digitVal d1 + 100 * digitVal d2 + 10 * digitVal d3 + digitVal d4)
      else none) := rfl

theorem yearAt_some_of (prev : Option Char) (mid post : List Char) (y : ℕ)
    (hm : yearTokenRead mid y) (hprev : boundB prev = true)
    (hpost : postOk post) :
    yearAt prev (mid ++ post) = some y := by
  obtain ⟨d1, d2, d3, d4, rfl, h12, h3, h4, rfl⟩ := hm
  simp only [List.cons_append, List.nil_append]
  refine (yearAt_cons4 prev d1 d2 d3 d4 post).trans (if_pos ?_)
  rw [Bool.and_eq_true, Bool.and_eq_true, Bool.and_eq_true, Bool.and_eq_true]
  refine ⟨⟨⟨⟨hprev, ?_⟩, h3⟩, h4⟩, hpost⟩
  rcases h12 with ⟨rfl, rfl⟩ | ⟨rfl, rfl⟩ <;> rfl

theorem preOk_cons {prev : Option Char} {c : Char} {pre : List Char} :
    preOk prev (c :: pre) ↔ preOk (some c) pre := by
  cases pre with
  | nil => simp [preOk]
  | cons p ps =>
    rw [preOk, preOk, List.getLast?_cons_cons]
    cases hl : (p :: ps).getLast? with
    | none => simp at hl
    | some a => rfl

theorem findYear_isSome_of (mid post : List Char) (y : ℕ)
    (hm : yearTokenRead mid y) (hpost : postOk post) :
    ∀ (pre : List Char) (prev : Option Char), preOk prev pre →
      (findYear prev (pre ++ (mid ++ post))).isSome = true := by
  intro pre
  induction pre with
  | nil =>
    intro prev hpre
    have hprev : boundB prev = true := hpre
    have hy := yearAt_some_of prev mid post y hm hprev hpost
    obtain ⟨d1, d2, d3, d4, hmid, -⟩ := hm
    subst hmid
    simp only [List.nil_append, List.cons_append] at hy ⊢
    rw [findYear, hy]
    rfl
  | cons c pre ih =>
    intro prev hpre
    rw [List.cons_append, findYear]
    cases hya : yearAt prev (c :: (pre ++ (mid ++ post))) with
    | some y' => rfl
    | none => exact ih (some c) (preOk_cons.mp hpre)

theorem yearAt_sound {prev : Option Char} {s : List Char} {y : ℕ}
    (h : yearAt prev s = some y) :
    ∃ d1 d2 d3 d4 rest, s = d1 :: d2 :: d3 :: d4 :: rest ∧
      yearTokenRead [d1, d2, d3, d4] y ∧
      boundB prev = true ∧ postOk rest := by
  match s with
  | [] => simp [yearAt] at h
  | [d1] => simp [yearAt] at h
  | [d1, d2] => simp [yearAt] at h
  | [d1, d2, d3] => simp [yearAt] at h
  | d1 :: d2 :: d3 :: d4 :: rest =>
    rw [yearAt_cons4] at h
    split at h
    case isTrue hc =>
      rw [Bool.and_eq_true, Bool.and_eq_true, Bool.and_eq_true,
        Bool.and_eq_true] at hc
      obtain ⟨⟨⟨⟨hprev, h12⟩, h3⟩, h4⟩, hrest⟩ := hc
      have h12' : (d1 = '1' ∧ d2 = '9') ∨ (d1 = '2' ∧ d2 = '0') := by
        simpa using h12
      have hy : y = 1000 * digitVal d1 + 100 * digitVal d2 +
          10 * digitVal d3 + digitVal d4 := by
        injection h with hv
        exact hv.symm
      exact ⟨d1, d2, d3, d4, rest, rfl,
        ⟨d1, d2, d3, d4, rfl, h12', h3, h4, hy⟩, hprev, hrest⟩
    case isFalse => cases h

theorem findYear_sound :
    ∀ (cs : List Char) (prev : Option Char) (y : ℕ),
      findYear prev cs = some y →
      ∃ pre mid post, cs = pre ++ (mid ++ post) ∧ yearTokenRead mid y ∧
        preOk prev pre ∧ postOk post := by
  intro cs
  induction cs with
  | nil => intro prev y h; simp [findYear] at h
  | cons c cs ih =>
    intro prev y h
    rw [findYear] at h
    cases hya : yearAt prev (c :: cs) with
    | some y' =>
      rw [hya] at h
      have hy : y' = y := by injection h
      subst hy
      obtain ⟨d1, d2, d3, d4, rest, hs, hread, hprev, hrest⟩ := yearAt_sound hya
      exact ⟨[], [d1, d2, d3, d4], rest, by simpa using hs, hread, hprev, hrest⟩
    | none =>
      rw [hya] at h
      obtain ⟨pre, mid, post, hs, hread, hpre, hpost⟩ := ih (some c) y h
      exact ⟨c :: pre, mid, post, by simp [hs], hread, preOk_cons.mpr hpre, hpost⟩

/-- C7: if the query contains a four-digit token of the 1900–2099 pattern
with word boundaries, the simple service's parser records such a token's
value as the explicit year preference (the leftmost token when several
occur), the value lies in 1900–2099, and `_build_filters` bounds the
release date to exactly that year. -/
theorem parseQuerySimple_year_filter (q : String)
    (h : ∃ y0, hasYearTokenV q.data y0) :
    ∃ y, (parseQuerySimple q).year_preference = some y ∧
      hasYearTokenV q.data y ∧ 1900 ≤ y ∧ y ≤ 2099 ∧
      fLookup (buildFiltersSimple (parseQuerySimple q) none)
          "primary_release_date_gte" =
        some (.str (toString y ++ "-01-01")) ∧
      fLookup (buildFiltersSimple (parseQuerySimple q) none)
          "primary_release_date_lte" =
        some (.str (toString y ++ "-12-31")) := by
  obtain ⟨y0, pre, mid, post, hcs, hread, hpre, hpost⟩ := h
  have hsome : (findYear none q.data).isSome = true := by
    rw [hcs]
    exact findYear_isSome_of mid post y0 hread hpost pre none hpre
  obtain ⟨y, hy⟩ := Option.isSome_iff_exists.mp hsome
  obtain ⟨pre', mid', post', hcs', hread', hpre', hpost'⟩ :=
    findYear_sound q.data none y hy
  have hyp : (parseQuerySimple q).year_preference = some y := hy
  have hbounds := yearTokenRead_bounds hread'
  have hynz : y ≠ 0 := by omega
  have n1 : ("primary_release_date_gte" : String) ≠ "vote_average_gte" := by decide
  have n2 : ("primary_release_date_gte" : String) ≠ "vote_count_gte" := by decide
  have n3 : ("primary_release_date_gte" : String) ≠ "vote_count_lte" := by decide
  have n4 : ("primary_release_date_gte" : String) ≠ "primary_release_date_lte" :=
    by decide
  have m1 : ("primary_release_date_lte" : String) ≠ "vote_average_gte" := by decide
  have m2 : ("primary_release_date_lte" : String) ≠ "vote_count_gte" := by decide
  have m3 : ("primary_release_date_lte" : String) ≠ "vote_count_lte" := by decide
  refine ⟨y, hyp, ⟨pre', mid', post', hcs', hread', hpre', hpost'⟩,
    hbounds.1, hbounds.2, ?_, ?_⟩
  · simp only [buildFiltersSimple, hyp]
    rw [if_pos hynz]
    split_ifs <;>
      simp only [fLookup_dictInsert_ne _ _ _ _ n1, fLookup_dictInsert_ne _ _ _ _ n2,
        fLookup_dictInsert_ne _ _ _ _ n3, fLookup_dictInsert_ne _ _ _ _ n4,
        fLookup_dictInsert_self]
  · simp only [buildFiltersSimple, hyp]
    rw [if_pos hynz]
    split_ifs <;>
      simp only [fLookup_dictInsert_ne _ _ _ _ m1, fLookup_dictInsert_ne _ _ _ _ m2,
        fLookup_dictInsert_ne _ _ _ _ m3, fLookup_dictInsert_self]

theorem parseQuerySimple_year_filter_witness :
    (∃ y0, hasYearTokenV "funny movies from 1999".data y0) ∧
    ∃ y, (parseQuerySimple "funny movies from 1999").year_preference = some y :=
  ⟨⟨1999, "funny movies from ".data, "1999".data, [], by decide,
     ⟨'1', '9', '9', '9', rfl, Or.inl ⟨rfl, rfl⟩, rfl, rfl, rfl⟩, rfl, rfl⟩,
   match parseQuerySimple_year_filter "funny movies from 1999"
      ⟨1999, "funny movies from ".data, "1999".data, [], by decide,
        ⟨'1', '9', '9', '9', rfl, Or.inl ⟨rfl, rfl⟩, rfl, rfl, rfl⟩,
        rfl, rfl⟩ with
   | ⟨y, hy, _⟩ => ⟨y, hy⟩⟩

end MovieMood
